import Mathlib

/-
Verification development for the performance / provisioning layer of the
entropy_automation_system repository.

The embedding covers, translated from the sources:
  * the `SmartCache` class (src/GOOGLE_API_TEST_RESULTS.md, "ADVANCED CACHING
    SYSTEM" section): TTL cache over three insertion-ordered JS `Map`s, with
    frequency-based eviction, key namespacing through
    `PERFORMANCE_CONFIG.caching.keyPrefix`, and lazy expiry in `get`;
  * the `BatchProcessor` class (same file): `createBatches` chunking,
    `processSheetsData` / `processDriveOperations` per-item dispatch with a
    per-item try/catch, and the `batchSheetsOperations` chunk loop;
  * `OptimizedSheetOperations.buildSearchIndex` / `searchWithIndex`
    (same file): the inverted index over a header+rows snapshot and the
    criteria intersection loop;
  * the Drive folder provisioner (src/unnamed/part_010):
    `getOrCreateFolder`, `sanitizeFolderName`, `createOrderSubfolders`,
    `setOrderFolderPermissions`, `createOrderMetadata` and
    `createAdvancedOrderFolder`.

Modelling conventions: JS `Map`s become insertion-ordered association lists
(`mapGet`/`mapSet`/`mapDelete` mirror `Map.get`/`Map.set`/`Map.delete`); JS
`Set`s of row numbers become duplicate-free lists in insertion order
(`setAdd`); `Date.now()` becomes an explicit `now : Nat` argument threaded to
the cache operations; thrown-and-caught JS exceptions become explicitly
returned error results, mirroring the try/catch structure of the source; the
external Google services (Sheets API, Drive iterators) are modelled by an
explicit `DriveState` of nodes for Drive and by handler environments for the
batch helpers, since the spec treats them as external collaborators.
-/

/- ===================== JS Map as an insertion-ordered association list ===================== -/

/-- `Map.get`: value of the first (unique) binding of `k`, if any. -/
def mapGet {α : Type} : List (String × α) → String → Option α
  | [], _ => none
  | e :: rest, k => if e.1 = k then some e.2 else mapGet rest k

/-- `Map.set`: overwrite the binding of `k` in place, or append a new one. -/
def mapSet {α : Type} : List (String × α) → String → α → List (String × α)
  | [], k, v => [(k, v)]
  | e :: rest, k, v => if e.1 = k then (k, v) :: rest else e :: mapSet rest k v

/-- `Map.delete`: remove the binding of `k`, keeping the order of the rest. -/
def mapDelete {α : Type} : List (String × α) → String → List (String × α)
  | [], _ => []
  | e :: rest, k => if e.1 = k then rest else e :: mapDelete rest k

/-- The key sequence of a map, in insertion order. -/
def mapKeys {α : Type} (m : List (String × α)) : List String := m.map Prod.fst

/-- Erasure of the first occurrence of a key from a key sequence (the effect
of `mapDelete` on `mapKeys`). -/
def keyErase : List String → String → List String
  | [], _ => []
  | x :: xs, k => if x = k then xs else x :: keyErase xs k

/- ===================== JS string helpers used by the sources ===================== -/

/-- `String.prototype.replace(pat, rep)` with a plain-string pattern: replace
only the first occurrence of `pat` (here on character lists). -/
def replaceFirstList (pat rep : List Char) : List Char → List Char
  | [] => []
  | c :: cs =>
    if pat.isPrefixOf (c :: cs) then rep ++ (c :: cs).drop pat.length
    else c :: replaceFirstList pat rep cs

/-- `s.replace(pat, rep)` for a plain-string `pat` (first occurrence only). -/
def jsReplaceFirst (s pat rep : String) : String :=
  String.mk (replaceFirstList pat.data rep.data s.data)

/-- `String.prototype.split(sep)` with a one-character separator, as used by
`orderId.split('-')` in src/unnamed/part_010. -/
def jsSplitAux (sep : Char) (cur : List Char) : List Char → List String
  | [] => [String.mk cur.reverse]
  | c :: cs =>
    if c = sep then String.mk cur.reverse :: jsSplitAux sep [] cs
    else jsSplitAux sep (c :: cur) cs

/-- `s.split(sep)` for a one-character separator. -/
def jsSplit (s : String) (sep : Char) : List String := jsSplitAux sep [] s.data

/-- ASCII model of `Character.toLowerCase` as used by `toLowerCase()` on the
cell and criterion strings (all values reaching it in the claims are ASCII). -/
def lowerChar (c : Char) : Char :=
  if 'A' ≤ c ∧ c ≤ 'Z' then Char.ofNat (c.toNat + 32) else c

/-- `s.toLowerCase()` (ASCII model). -/
def jsToLowerCase (s : String) : String := String.mk (s.data.map lowerChar)

/-- Decimal digit list value, for the model of `parseInt`. -/
def digitsVal (cs : List Char) : Option Nat :=
  let ds := cs.takeWhile Char.isDigit
  if ds.isEmpty then none
  else some (ds.foldl (fun acc c => acc * 10 + (c.toNat - 48)) 0)

/-- `parseInt(s)` (decimal): skip leading spaces, optional sign, then the
longest digit run; `none` models `NaN`. -/
def jsParseInt (s : String) : Option Int :=
  match s.data.dropWhile (fun c => c = ' ') with
  | '-' :: rest => (digitsVal rest).map (fun n => -(n : Int))
  | '+' :: rest => (digitsVal rest).map (fun n => (n : Int))
  | t => (digitsVal t).map (fun n => (n : Int))

/- ===================== SmartCache (GOOGLE_API_TEST_RESULTS.md) ===================== -/

/-- `PERFORMANCE_CONFIG.caching`: `ttl`, `maxEntries`, and the key namespace
string (`keyPrefix` in the source). -/
structure CacheConfig where
  ttl : Nat
  maxEntries : Nat
  keyPfx : String
deriving DecidableEq

/-- The source's `PERFORMANCE_CONFIG.caching` literal:
`ttl: 300000, maxEntries: 1000, keyPrefix: 'trade_ops_'`. -/
def perfConfigCaching : CacheConfig := ⟨300000, 1000, "trade_ops_"⟩

/-- The three `Map`s owned by `SmartCache`: `cache`, `timestamps` (absolute
expiry instants, `Date.now() + ttl`), and `accessCount`. -/
structure SmartCache (α : Type) where
  cache : List (String × α)
  timestamps : List (String × Nat)
  accessCount : List (String × Nat)
deriving DecidableEq

/-- A freshly constructed `SmartCache` (empty maps). -/
def emptyCache (α : Type) : SmartCache α := ⟨[], [], []⟩

/-- `SmartCache.delete(key)`: prefixes the key and removes it from all three
maps. -/
def SmartCache.delete {α : Type} (cfg : CacheConfig) (c : SmartCache α) (key : String) :
    SmartCache α :=
  let ck := cfg.keyPfx ++ key
  ⟨mapDelete c.cache ck, mapDelete c.timestamps ck, mapDelete c.accessCount ck⟩

/-- The `for (const [key, count] of accessCount.entries())` scan of
`evictOldest`: the first entry holding the strictly smallest count so far
(`lowestCount` starts at `Infinity`, modelled by the `none` accumulator). -/
def pickMinAux : Option (String × Nat) → List (String × Nat) → Option (String × Nat)
  | best, [] => best
  | none, e :: rest => pickMinAux (some e) rest
  | some b, e :: rest => pickMinAux (if e.2 < b.2 then some e else some b) rest

/-- The key/count pair selected by `evictOldest`'s scan. -/
def pickMin (m : List (String × Nat)) : Option (String × Nat) := pickMinAux none m

/-- `SmartCache.evictOldest()`: pick the minimum-access-count key; if one was
found (`if (oldestKey)`, falsy on `null` and on the empty string), strip the
key namespace once (`oldestKey.replace(keyPrefix, '')`) and `delete` it. -/
def SmartCache.evictOldest {α : Type} (cfg : CacheConfig) (c : SmartCache α) : SmartCache α :=
  match pickMin c.accessCount with
  | none => c
  | some q =>
    if q.1 = "" then c
    else SmartCache.delete cfg c (jsReplaceFirst q.1 cfg.keyPfx "")

/-- `SmartCache.set(key, value, ttl)`: evict first when
`cache.size >= maxEntries`, then write value, absolute expiry `now + ttl`,
and access count `0` under the namespaced key. -/
def SmartCache.set {α : Type} (cfg : CacheConfig) (c : SmartCache α) (now : Nat)
    (key : String) (value : α) (ttl : Nat) : SmartCache α :=
  let ck := cfg.keyPfx ++ key
  let c1 := if cfg.maxEntries ≤ c.cache.length then SmartCache.evictOldest cfg c else c
  ⟨mapSet c1.cache ck value, mapSet c1.timestamps ck (now + ttl), mapSet c1.accessCount ck 0⟩

/-- `SmartCache.get(key)`: miss when absent; when the stored expiry is in the
past, the source calls `this.delete(cacheKey)` with the **already prefixed**
key (so `delete` prefixes it a second time) and reports a miss; otherwise
bump the access count and return the value. -/
def SmartCache.get {α : Type} (cfg : CacheConfig) (c : SmartCache α) (now : Nat)
    (key : String) : Option α × SmartCache α :=
  let ck := cfg.keyPfx ++ key
  match mapGet c.cache ck with
  | none => (none, c)
  | some v =>
    let hit : Option α × SmartCache α :=
      (some v,
       ⟨c.cache, c.timestamps,
        mapSet c.accessCount ck ((mapGet c.accessCount ck).getD 0 + 1)⟩)
    match mapGet c.timestamps ck with
    | some expiry => if expiry < now then (none, SmartCache.delete cfg c ck) else hit
    | none => hit

/-- A sequence of `set` calls, each with its own `Date.now()`, key, value and
ttl, applied left to right. -/
def applySets {α : Type} (cfg : CacheConfig) : SmartCache α → List (Nat × String × α × Nat) → SmartCache α
  | c, [] => c
  | c, op :: rest => applySets cfg (SmartCache.set cfg c op.1 op.2.1 op.2.2.1 op.2.2.2) rest

/-- Well-formedness maintained by the `SmartCache` methods: the three maps
always hold the same keys in the same order, and every stored key carries the
configured key namespace in front. -/
def CacheWF {α : Type} (cfg : CacheConfig) (c : SmartCache α) : Prop :=
  mapKeys c.timestamps = mapKeys c.cache ∧
  mapKeys c.accessCount = mapKeys c.cache ∧
  ∀ k ∈ mapKeys c.cache, ∃ s, k = cfg.keyPfx ++ s

/- ===================== BatchProcessor (GOOGLE_API_TEST_RESULTS.md) ===================== -/

/-- An operation object handed to the batch processor: a string `type` tag
(dispatched by the `switch`) and an opaque payload consumed by the remote
helper for that type. -/
structure BatchOp (π : Type) where
  type : String
  payload : π
deriving DecidableEq

/-- Per-item outcome pushed by the chunk loops:
`{ success: true, data }` or `{ success: false, error }`. -/
inductive ItemResult (δ : Type) where
  | success (data : δ)
  | failure (error : String)
deriving DecidableEq

/-- `createBatches(items, batchSize)`: `items.slice(i, i + batchSize)` for
`i = 0, batchSize, 2·batchSize, …` (the JS loop does not terminate when
`batchSize = 0`; that case is modelled as `[]` and every theorem assumes a
positive chunk size). -/
def createBatches {α : Type} : List α → Nat → List (List α)
  | [], _ => []
  | a :: as, b =>
    if h : b = 0 then []
    else (a :: as).take b :: createBatches ((a :: as).drop b) b
termination_by items _ => items.length
decreasing_by
  simp only [List.length_drop, List.length_cons]
  omega

/-- The three remote Sheets helpers dispatched by `processSheetsData`
(`readSheetsData` / `writeSheetsData` / `updateSheetsData`); they call the
external Sheets service and either return data or throw, modelled by
`Except`. -/
structure SheetsHandlers (π δ : Type) where
  readSheetsData : BatchOp π → Except String δ
  writeSheetsData : BatchOp π → Except String δ
  updateSheetsData : BatchOp π → Except String δ

/-- The `switch (operation.type)` of `processSheetsData`; its `default` arm
throws `Unknown operation type: …`. -/
def sheetsDispatch {π δ : Type} (h : SheetsHandlers π δ) (op : BatchOp π) :
    Except String δ :=
  if op.type = "read" then h.readSheetsData op
  else if op.type = "write" then h.writeSheetsData op
  else if op.type = "update" then h.updateSheetsData op
  else Except.error ("Unknown operation type: " ++ op.type)

/-- One iteration of the `processSheetsData` loop body: the try/catch around
a single operation, pushing `{success:true,data}` or `{success:false,error}`. -/
def sheetsItemOutcome {π δ : Type} (h : SheetsHandlers π δ) (op : BatchOp π) :
    ItemResult δ :=
  match sheetsDispatch h op with
  | Except.ok r => ItemResult.success r
  | Except.error e => ItemResult.failure e

/-- `processSheetsData(batch)`: every operation of the chunk is executed under
its own try/catch; the function itself always returns a result list. -/
def processSheetsData {π δ : Type} (h : SheetsHandlers π δ) (batch : List (BatchOp π)) :
    List (ItemResult δ) :=
  batch.map (sheetsItemOutcome h)

/-- The three remote Drive helpers dispatched by `processDriveOperations`
(`createDriveFolder` / `moveDriveFile` / `setDrivePermissions`). -/
structure DriveHandlers (π δ : Type) where
  createDriveFolder : BatchOp π → Except String δ
  moveDriveFile : BatchOp π → Except String δ
  setDrivePermissions : BatchOp π → Except String δ

/-- The `switch (operation.type)` of `processDriveOperations`. -/
def driveDispatch {π δ : Type} (h : DriveHandlers π δ) (op : BatchOp π) :
    Except String δ :=
  if op.type = "createFolder" then h.createDriveFolder op
  else if op.type = "moveFile" then h.moveDriveFile op
  else if op.type = "setPermissions" then h.setDrivePermissions op
  else Except.error ("Unknown operation type: " ++ op.type)

/-- One iteration of the `processDriveOperations` loop body. -/
def driveItemOutcome {π δ : Type} (h : DriveHandlers π δ) (op : BatchOp π) :
    ItemResult δ :=
  match driveDispatch h op with
  | Except.ok r => ItemResult.success r
  | Except.error e => ItemResult.failure e

/-- `processDriveOperations(batch)`. -/
def processDriveOperations {π δ : Type} (h : DriveHandlers π δ) (batch : List (BatchOp π)) :
    List (ItemResult δ) :=
  batch.map (driveItemOutcome h)

/-- `batchSheetsOperations(operations)`: chunk with `createBatches`, then
`results.push(...await processSheetsData(batch))` per chunk in order (the
inter-chunk `delay` and the performance monitor calls do not touch the
results). -/
def batchSheetsOperations {π δ : Type} (h : SheetsHandlers π δ) (batchSize : Nat)
    (operations : List (BatchOp π)) : List (ItemResult δ) :=
  (createBatches operations batchSize).foldl
    (fun results batch => results ++ processSheetsData h batch) []

/- ===================== Search index (GOOGLE_API_TEST_RESULTS.md) ===================== -/

/-- A snapshot cell value as the index code distinguishes them: string,
(integer) number, or boolean. -/
inductive JsVal where
  | str (s : String)
  | num (n : Int)
  | boolean (b : Bool)
deriving DecidableEq

/-- JS truthiness of a cell value (`if (value)` in `buildSearchIndex`):
the empty string, `0`, and `false` are falsy. -/
def js_truthy : JsVal → Bool
  | JsVal.str s => decide (s ≠ "")
  | JsVal.num n => decide (n ≠ 0)
  | JsVal.boolean b => b

/-- `value.toString()` for the three cell kinds. -/
def jsToString : JsVal → String
  | JsVal.str s => s
  | JsVal.num n => toString n
  | JsVal.boolean b => if b then "true" else "false"

/-- `value.toString().toLowerCase()`, the normalization applied to both the
indexed cells and the query criteria. -/
def jsNormalize (v : JsVal) : String := jsToLowerCase (jsToString v)

/-- `index[header].get(valueStr).push(rowIndex)` preceded by
`if (!index[header].has(valueStr)) index[header].set(valueStr, [])`:
append the row to the bucket of `k`, creating the bucket at the end of the
map when absent. -/
def indexAdd : List (String × List Nat) → String → Nat → List (String × List Nat)
  | [], k, r => [(k, [r])]
  | e :: rest, k, r =>
    if e.1 = k then (e.1, e.2 ++ [r]) :: rest else e :: indexAdd rest k r

/-- One iteration of the inner row loop of `buildSearchIndex`: index
`data[rowIndex][colIndex]` under its normalized string when truthy (an
out-of-range access is `undefined`, hence falsy and skipped). -/
def colIndexStep (ci : Nat) (m : List (String × List Nat)) (row : List JsVal) (r : Nat) :
    List (String × List Nat) :=
  match row.get? ci with
  | some v => if js_truthy v then indexAdd m (jsNormalize v) r else m
  | none => m

/-- The inner row loop of `buildSearchIndex` for one column: visit the rows
with `colIndexStep` for `rowIndex = start, start+1, …`. -/
def buildColIndexFrom (ci : Nat) : List (List JsVal) → Nat → List (String × List Nat) →
    List (String × List Nat)
  | [], _, m => m
  | row :: rest, r, m => buildColIndexFrom ci rest (r + 1) (colIndexStep ci m row r)

/-- The per-column map of `buildSearchIndex`: rows `1 … data.length - 1`
(row `0` is the header row). -/
def buildColIndex (data : List (List JsVal)) (ci : Nat) : List (String × List Nat) :=
  buildColIndexFrom ci (data.drop 1) 1 []

/-- `buildSearchIndex(data, headers)`: `index[header] = <column map>` per
header in order (a duplicate header is overwritten by the later column, as JS
property assignment does). -/
def buildSearchIndex (data : List (List JsVal)) (headers : List String) :
    List (String × List (String × List Nat)) :=
  headers.enum.foldl (fun idx p => mapSet idx p.2 (buildColIndex data p.1)) []

/-- `Set.add` on the matching-row set: insertion order, duplicates ignored. -/
def setAdd (s : List Nat) (r : Nat) : List Nat := if r ∈ s then s else s ++ [r]

/-- `rows.forEach(row => set.add(row))`. -/
def setAddAll (s : List Nat) (rows : List Nat) : List Nat := rows.foldl setAdd s

/-- The bucket of key `k` in a column map, `index[column].get(valueStr) || []`. -/
def rowsOf (m : List (String × List Nat)) (k : String) : List Nat :=
  (mapGet m k).getD []

/-- `searchWithIndex(index, criteria)`: fold over `Object.entries(criteria)`;
a criterion whose column is missing from the index is skipped; when the
matching set is still empty the criterion's rows are added wholesale,
otherwise the set is replaced by its intersection with the criterion's rows
(`newMatches`), preserving the rows' visit order. -/
def searchWithIndex (idx : List (String × List (String × List Nat)))
    (criteria : List (String × JsVal)) : List Nat :=
  criteria.foldl
    (fun matchingRows cr =>
      match mapGet idx cr.1 with
      | none => matchingRows
      | some colMap =>
        let rows := rowsOf colMap (jsNormalize cr.2)
        if matchingRows.length = 0 then setAddAll matchingRows rows
        else setAddAll [] (rows.filter (fun r => decide (r ∈ matchingRows))))
    []

/- ===================== Drive provisioner (src/unnamed/part_010) ===================== -/

/-- A Drive node is a folder or a file. -/
inductive NodeKind where
  | folder
  | file
deriving DecidableEq

/-- One node of the remote hierarchical store: opaque id, parent id, name,
kind. -/
structure DriveNode where
  id : Nat
  parentId : Nat
  name : String
  kind : NodeKind
deriving DecidableEq

/-- The remote Drive tree as the provisioner observes it: nodes in creation
order plus the next fresh id. -/
structure DriveState where
  nodes : List DriveNode
  nextId : Nat
deriving DecidableEq

/-- The predicate behind `parentFolder.getFoldersByName(name)`: a folder
child of `pid` named `name`. -/
def folderMatch (pid : Nat) (name : String) (n : DriveNode) : Bool :=
  decide (n.parentId = pid ∧ n.name = name ∧ n.kind = NodeKind.folder)

/-- `parentFolder.getFoldersByName(name)` followed by `.next()`: the first
matching folder in creation order, if any. -/
def findFolderByName (st : DriveState) (pid : Nat) (name : String) : Option Nat :=
  (st.nodes.find? (folderMatch pid name)).map DriveNode.id

/-- A remote create call (`createFolder` / `createFile`): append a fresh node
and return its id. -/
def driveCreateNode (st : DriveState) (pid : Nat) (name : String) (kind : NodeKind) :
    Nat × DriveState :=
  (st.nextId, ⟨st.nodes ++ [⟨st.nextId, pid, name, kind⟩], st.nextId + 1⟩)

/-- `getOrCreateFolder(parentFolder, name)`: reuse the first existing child
folder with that name, else create one. -/
def getOrCreateFolder (st : DriveState) (pid : Nat) (name : String) : Nat × DriveState :=
  match findFolderByName st pid name with
  | some fid => (fid, st)
  | none => driveCreateNode st pid name NodeKind.folder

/-- `sanitizeFolderName(name)`:
`name.replace(/[<>:"\/\\|?*]/g, '_').substring(0, 50)`. -/
def sanitizeFolderName (name : String) : String :=
  String.mk
    (((name.data.map (fun c =>
        if c ∈ ['<', '>', ':', '"', '/', '\\', '|', '?', '*'] then '_' else c))).take 50)

/-- `DRIVE_CONFIG.orderFolderStructure`: the subfolder layout created under
each order folder.  In the source it is a two-level nested object literal
whose leaves are all empty arrays (`Object.keys(leaf).length` is `0`, so
`createStructure` never recurses past the second level); it is therefore
modelled at exactly that shape: top-level folder names with their child
folder names. -/
def orderFolderStructure : List (String × List String) :=
  [("Documents", ["Quotes", "Contracts", "Invoices", "Certificates"]),
   ("Communications", ["Emails", "WeChat_Logs", "Phone_Records"]),
   ("Attachments", ["Product_Specs", "Shipping_Docs", "Quality_Reports", "Photos"]),
   ("Internal", ["Production_Notes", "Quality_Control", "Logistics_Planning"])]

/-- `createOrderSubfolders(orderFolder)`: depth-first walk of
`DRIVE_CONFIG.orderFolderStructure` with `getOrCreateFolder` at every level
(see `orderFolderStructure` for the config shape). -/
def createOrderSubfolders (st : DriveState) (orderFolderId : Nat) : DriveState :=
  orderFolderStructure.foldl
    (fun st1 entry =>
      let r := getOrCreateFolder st1 orderFolderId entry.1
      entry.2.foldl (fun st2 child => (getOrCreateFolder st2 r.1 child).2) r.2)
    st

/-- `setOrderFolderPermissions(orderFolder, clientEmail)`: the sharing calls
go to the external service and do not change the tree; when a client email
containing `@` is given, a `Client_Access` child folder is ensured. -/
def setOrderFolderPermissions (st : DriveState) (orderFolderId : Nat)
    (clientEmail : String) : DriveState :=
  if clientEmail ≠ "" ∧ clientEmail.contains '@' then
    (getOrCreateFolder st orderFolderId "Client_Access").2
  else st

/-- `createOrderMetadata(orderFolder, …)`: unconditionally
`orderFolder.createFile(blob)` with the `_order_metadata.json` blob — there
is no existence check.  (The JSON body only goes into the blob's content,
which the tree model does not store.) -/
def createOrderMetadata (st : DriveState) (orderFolderId : Nat) : DriveState :=
  (driveCreateNode st orderFolderId "_order_metadata.json" NodeKind.file).2

/-- `getSubfolderDetails(parentFolder)`: names and ids of the direct child
folders. -/
def getSubfolderDetails (st : DriveState) (pid : Nat) : List (String × Nat) :=
  (st.nodes.filter (fun n => decide (n.parentId = pid ∧ n.kind = NodeKind.folder))).map
    (fun n => (n.name, n.id))

/-- The two result shapes of `createAdvancedOrderFolder`: the success object
`{folderId, folderUrl, folderPath, subfolders}` or the catch-branch object
`{error, folderId:'ERROR_CREATING_FOLDER', folderUrl:'ERROR',
folderPath:'ERROR'}`. -/
inductive OrderFolderResult where
  | ok (folderId : Nat) (folderPath : String) (subfolders : List (String × Nat))
  | err (message : String) (folderId : String) (folderUrl : String) (folderPath : String)
deriving DecidableEq

/-- The `folderPath` field of either result shape. -/
def OrderFolderResult.pathOf : OrderFolderResult → String
  | OrderFolderResult.ok _ p _ => p
  | OrderFolderResult.err _ _ _ p => p

/-- Whether the result is the catch-branch error object. -/
def OrderFolderResult.isErr : OrderFolderResult → Bool
  | OrderFolderResult.ok _ _ _ => false
  | OrderFolderResult.err _ _ _ _ => true

/-- The terminal folder id of a success result. -/
def OrderFolderResult.idOf : OrderFolderResult → Option Nat
  | OrderFolderResult.ok i _ _ => some i
  | OrderFolderResult.err _ _ _ _ => none

/-- The catch-branch result for a thrown message. -/
def orderFolderError (msg : String) : OrderFolderResult :=
  OrderFolderResult.err msg "ERROR_CREATING_FOLDER" "ERROR" "ERROR"

/-- `createAdvancedOrderFolder(orderId, clientName, clientEmail, productCategory)`.
The whole body sits in a try/catch whose catch returns the error object, so
each `throw` becomes an early return of `orderFolderError` carrying the state
mutated so far.  `rootProp` is
`PropertiesService.getScriptProperties().getProperty('TRADE_OPERATIONS_FOLDER_ID')`
(`none` models a missing property); `DriveApp.getFolderById` throws when the
id resolves to no folder (message text owned by the external service).
`logFolderCreation` appends to a spreadsheet owned by the external table
store (own try/catch, no Drive mutation) and is therefore not part of the
tree state.  The `productCategory` argument only flows into the metadata
blob's content. -/
def createAdvancedOrderFolder (rootProp : Option Nat) (st0 : DriveState)
    (orderId clientName clientEmail productCategory : String) :
    OrderFolderResult × DriveState :=
  match rootProp with
  | none =>
    (orderFolderError "Root folder ID not found. Please run initializeDriveSystem() first.",
     st0)
  | some rootId =>
    if (st0.nodes.find? (fun n => decide (n.id = rootId ∧ n.kind = NodeKind.folder))).isNone
    then (orderFolderError "Drive folder not found", st0)
    else
      let r1 := getOrCreateFolder st0 rootId "01_Orders"
      let orderParts := jsSplit orderId '-'
      if orderParts.length ≠ 4 then
        (orderFolderError
          ("Invalid Order ID format: " ++ orderId ++ ". Expected: ORD-YYYY-MM-DD-XXX"),
         r1.2)
      else
        let year := orderParts.getD 1 ""
        let quarter := "Q" ++
          (match jsParseInt (orderParts.getD 2 "") with
           | none => "NaN"
           | some m => toString ((m + 2).fdiv 3))
        let r2 := getOrCreateFolder r1.2 r1.1 year
        let r3 := getOrCreateFolder r2.2 r2.1 quarter
        let orderFolderName := orderId ++ "_" ++ sanitizeFolderName clientName
        let r4 := getOrCreateFolder r3.2 r3.1 orderFolderName
        let st5 := createOrderSubfolders r4.2 r4.1
        let st6 := setOrderFolderPermissions st5 r4.1 clientEmail
        let st7 := createOrderMetadata st6 r4.1
        (OrderFolderResult.ok r4.1 (year ++ "/" ++ quarter ++ "/" ++ orderFolderName)
          (getSubfolderDetails st7 r4.1),
         st7)

/-- A Drive tree holding only the Trade_Operations root folder (id 0). -/
def initialDrive : DriveState := ⟨[⟨0, 0, "Trade_Operations", NodeKind.folder⟩], 1⟩

/- ===================== Lemmas: the association-list map model ===================== -/

theorem mapGet_mapSet_self {α : Type} (m : List (String × α)) (k : String) (v : α) :
    mapGet (mapSet m k v) k = some v := by
  induction m with
  | nil => simp [mapSet, mapGet]
  | cons e rest ih =>
    by_cases h : e.1 = k
    · simp [mapSet, h, mapGet]
    · simp [mapSet, h, mapGet, ih]

theorem length_mapSet_le {α : Type} (m : List (String × α)) (k : String) (v : α) :
    (mapSet m k v).length ≤ m.length + 1 := by
  induction m with
  | nil => simp [mapSet]
  | cons e rest ih =>
    by_cases h : e.1 = k
    · simp [mapSet, h]
    · simp only [mapSet, if_neg h, List.length_cons]
      omega

theorem mem_mapKeys_cons {α : Type} (e : String × α) (rest : List (String × α)) (k : String) :
    k ∈ mapKeys (e :: rest) ↔ k = e.1 ∨ k ∈ mapKeys rest := by
  simp [mapKeys]

theorem keys_mapSet_mem {α : Type} (k : String) (v : α) :
    ∀ (m : List (String × α)), k ∈ mapKeys m → mapKeys (mapSet m k v) = mapKeys m := by
  intro m
  induction m with
  | nil => intro hk; simp [mapKeys] at hk
  | cons e rest ih =>
    intro hk
    by_cases h : e.1 = k
    · simp [mapSet, h, mapKeys]
    · have hk' : k ∈ mapKeys rest := by
        rcases (mem_mapKeys_cons e rest k).mp hk with hk | hk
        · exact absurd hk (fun hh => h hh.symm)
        · exact hk
      simp only [mapSet, if_neg h, mapKeys, List.map_cons]
      exact congrArg (List.cons e.1) (ih hk')

theorem keys_mapSet_not_mem {α : Type} (k : String) (v : α) :
    ∀ (m : List (String × α)), k ∉ mapKeys m → mapKeys (mapSet m k v) = mapKeys m ++ [k] := by
  intro m
  induction m with
  | nil => intro hk; simp [mapSet, mapKeys]
  | cons e rest ih =>
    intro hk
    have h : e.1 ≠ k := fun h => hk ((mem_mapKeys_cons e rest k).mpr (Or.inl h.symm))
    have hk' : k ∉ mapKeys rest :=
      fun hmem => hk ((mem_mapKeys_cons e rest k).mpr (Or.inr hmem))
    simp only [mapSet, if_neg h, mapKeys, List.map_cons, List.cons_append]
    exact congrArg (List.cons e.1) (ih hk')

theorem keys_mapDelete {α : Type} (m : List (String × α)) (k : String) :
    mapKeys (mapDelete m k) = keyErase (mapKeys m) k := by
  induction m with
  | nil => simp [mapDelete, mapKeys, keyErase]
  | cons e rest ih =>
    by_cases h : e.1 = k
    · simp [mapDelete, h, mapKeys, keyErase]
    · simp only [mapDelete, if_neg h, mapKeys, List.map_cons, keyErase]
      exact congrArg (List.cons e.1) ih

theorem mem_of_mem_keyErase {l : List String} {k x : String}
    (hx : x ∈ keyErase l k) : x ∈ l := by
  induction l with
  | nil => simp [keyErase] at hx
  | cons y ys ih =>
    by_cases h : y = k
    · simp [keyErase, h] at hx
      simp [hx]
    · simp [keyErase, h] at hx
      rcases hx with hx | hx
      · simp [hx]
      · simp [ih hx]

theorem length_keyErase_mem {k : String} :
    ∀ {l : List String}, k ∈ l → (keyErase l k).length + 1 = l.length := by
  intro l
  induction l with
  | nil => intro hk; simp at hk
  | cons y ys ih =>
    intro hk
    by_cases h : y = k
    · simp [keyErase, h]
    · have hk' : k ∈ ys := by
        rcases List.mem_cons.mp hk with hk | hk
        · exact absurd hk.symm h
        · exact hk
      have := ih hk'
      simp only [keyErase, if_neg h, List.length_cons]
      omega

theorem length_eq_keys_length {α : Type} (m : List (String × α)) :
    m.length = (mapKeys m).length := by
  simp [mapKeys]

/- ===================== Lemmas: the evictOldest scan ===================== -/

theorem pickMinAux_spec :
    ∀ (l : List (String × Nat)) (b q : String × Nat),
      pickMinAux (some b) l = some q →
      (q = b ∨ q ∈ l) ∧ q.2 ≤ b.2 ∧ ∀ e ∈ l, q.2 ≤ e.2 := by
  intro l
  induction l with
  | nil =>
    intro b q hq
    simp [pickMinAux] at hq
    simp [hq]
  | cons e rest ih =>
    intro b q hq
    simp only [pickMinAux] at hq
    by_cases hcmp : e.2 < b.2
    · rw [if_pos hcmp] at hq
      obtain ⟨hmem, hle, hall⟩ := ih e q hq
      refine ⟨?_, ?_, ?_⟩
      · rcases hmem with h | h
        · exact Or.inr (by simp [h])
        · exact Or.inr (by simp [h])
      · exact Nat.le_trans hle (Nat.le_of_lt hcmp)
      · intro x hx
        rcases List.mem_cons.mp hx with hx | hx
        · exact hx ▸ hle
        · exact hall x hx
    · rw [if_neg hcmp] at hq
      obtain ⟨hmem, hle, hall⟩ := ih b q hq
      refine ⟨?_, hle, ?_⟩
      · rcases hmem with h | h
        · exact Or.inl h
        · exact Or.inr (by simp [h])
      · intro x hx
        rcases List.mem_cons.mp hx with hx | hx
        · exact hx ▸ Nat.le_trans hle (Nat.le_of_not_lt hcmp)
        · exact hall x hx

theorem pickMinAux_isSome :
    ∀ (l : List (String × Nat)) (b : String × Nat), (pickMinAux (some b) l).isSome := by
  intro l
  induction l with
  | nil => intro b; simp [pickMinAux]
  | cons e rest ih =>
    intro b
    simp only [pickMinAux]
    by_cases hcmp : e.2 < b.2
    · rw [if_pos hcmp]; exact ih e
    · rw [if_neg hcmp]; exact ih b

theorem pickMin_spec (m : List (String × Nat)) (hm : m ≠ []) :
    ∃ q, pickMin m = some q ∧ q ∈ m ∧ ∀ e ∈ m, q.2 ≤ e.2 := by
  cases m with
  | nil => exact absurd rfl hm
  | cons e rest =>
    have hsome : (pickMinAux (some e) rest).isSome := pickMinAux_isSome rest e
    obtain ⟨q, hq⟩ := Option.isSome_iff_exists.mp hsome
    obtain ⟨hmem, hle, hall⟩ := pickMinAux_spec rest e q hq
    refine ⟨q, ?_, ?_, ?_⟩
    · simpa [pickMin, pickMinAux] using hq
    · rcases hmem with h | h
      · simp [h]
      · simp [h]
    · intro x hx
      rcases List.mem_cons.mp hx with hx | hx
      · exact hx ▸ hle
      · exact hall x hx

/- ===================== Lemmas: first-occurrence replace ===================== -/

theorem isPrefixOf_append_self : ∀ (l t : List Char), l.isPrefixOf (l ++ t) = true := by
  intro l t
  induction l with
  | nil => simp [List.isPrefixOf]
  | cons c cs ih => simp [List.isPrefixOf, ih]

theorem replaceFirstList_cancel (p s : List Char) (hp : p ≠ []) :
    replaceFirstList p [] (p ++ s) = s := by
  cases p with
  | nil => exact absurd rfl hp
  | cons c cs =>
    have harr : (c :: cs) ++ s = c :: (cs ++ s) := by simp
    rw [harr]
    simp only [replaceFirstList]
    rw [← harr, isPrefixOf_append_self]
    simp [List.drop_left]

theorem string_data_append (s t : String) : (s ++ t).data = s.data ++ t.data := by
  cases s
  cases t
  rfl

theorem string_eq_of_data_eq {s t : String} (h : s.data = t.data) : s = t := by
  cases s
  cases t
  exact congrArg String.mk h

theorem append_ne_empty_left {p s : String} (hp : p ≠ "") : p ++ s ≠ "" := by
  intro h
  apply hp
  have hd : p.data ++ s.data = ([] : List Char) := by
    have := congrArg String.data h
    rwa [string_data_append] at this
  have : p.data = [] := (List.append_eq_nil.mp hd).1
  exact string_eq_of_data_eq (by simp [this])

theorem jsReplaceFirst_cancel (p s : String) (hp : p ≠ "") :
    jsReplaceFirst (p ++ s) p "" = s := by
  have hd : p.data ≠ [] := by
    intro h
    exact hp (string_eq_of_data_eq (by simp [h]))
  apply string_eq_of_data_eq
  show (replaceFirstList p.data "".data (p ++ s).data) = s.data
  rw [string_data_append]
  exact replaceFirstList_cancel p.data s.data hd

/- ===================== Lemmas: SmartCache well-formedness ===================== -/

theorem delete_CacheWF {α : Type} (cfg : CacheConfig) (c : SmartCache α) (key : String)
    (hwf : CacheWF cfg c) : CacheWF cfg (SmartCache.delete cfg c key) := by
  obtain ⟨h1, h2, h3⟩ := hwf
  refine ⟨?_, ?_, ?_⟩
  · show mapKeys (mapDelete c.timestamps (cfg.keyPfx ++ key)) =
      mapKeys (mapDelete c.cache (cfg.keyPfx ++ key))
    rw [keys_mapDelete, keys_mapDelete, h1]
  · show mapKeys (mapDelete c.accessCount (cfg.keyPfx ++ key)) =
      mapKeys (mapDelete c.cache (cfg.keyPfx ++ key))
    rw [keys_mapDelete, keys_mapDelete, h2]
  · intro k hk
    show ∃ s, k = cfg.keyPfx ++ s
    have : k ∈ mapKeys c.cache := by
      have hk' : k ∈ keyErase (mapKeys c.cache) (cfg.keyPfx ++ key) := by
        rw [← keys_mapDelete]
        exact hk
      exact mem_of_mem_keyErase hk'
    exact h3 k this

theorem evictOldest_CacheWF {α : Type} (cfg : CacheConfig) (c : SmartCache α)
    (hwf : CacheWF cfg c) : CacheWF cfg (SmartCache.evictOldest cfg c) := by
  unfold SmartCache.evictOldest
  cases pickMin c.accessCount with
  | none => exact hwf
  | some q =>
    by_cases hq : q.1 = ""
    · simpa [hq] using hwf
    · simpa [hq] using delete_CacheWF cfg c (jsReplaceFirst q.1 cfg.keyPfx "") hwf

theorem set_CacheWF {α : Type} (cfg : CacheConfig) (c : SmartCache α) (now : Nat)
    (key : String) (v : α) (ttl : Nat) (hwf : CacheWF cfg c) :
    CacheWF cfg (SmartCache.set cfg c now key v ttl) := by
  unfold SmartCache.set
  set c1 := if cfg.maxEntries ≤ c.cache.length then SmartCache.evictOldest cfg c else c with hc1
  have hwf1 : CacheWF cfg c1 := by
    rw [hc1]
    by_cases hcap : cfg.maxEntries ≤ c.cache.length
    · simpa [hcap] using evictOldest_CacheWF cfg c hwf
    · simpa [hcap] using hwf
  obtain ⟨h1, h2, h3⟩ := hwf1
  by_cases hmem : (cfg.keyPfx ++ key) ∈ mapKeys c1.cache
  · refine ⟨?_, ?_, ?_⟩
    · show mapKeys (mapSet c1.timestamps (cfg.keyPfx ++ key) (now + ttl)) =
        mapKeys (mapSet c1.cache (cfg.keyPfx ++ key) v)
      rw [keys_mapSet_mem _ _ _ (h1 ▸ hmem), keys_mapSet_mem _ _ _ hmem, h1]
    · show mapKeys (mapSet c1.accessCount (cfg.keyPfx ++ key) 0) =
        mapKeys (mapSet c1.cache (cfg.keyPfx ++ key) v)
      rw [keys_mapSet_mem _ _ _ (h2 ▸ hmem), keys_mapSet_mem _ _ _ hmem, h2]
    · intro k hk
      rw [keys_mapSet_mem _ _ _ hmem] at hk
      exact h3 k hk
  · refine ⟨?_, ?_, ?_⟩
    · show mapKeys (mapSet c1.timestamps (cfg.keyPfx ++ key) (now + ttl)) =
        mapKeys (mapSet c1.cache (cfg.keyPfx ++ key) v)
      rw [keys_mapSet_not_mem _ _ _ (h1 ▸ hmem), keys_mapSet_not_mem _ _ _ hmem, h1]
    · show mapKeys (mapSet c1.accessCount (cfg.keyPfx ++ key) 0) =
        mapKeys (mapSet c1.cache (cfg.keyPfx ++ key) v)
      rw [keys_mapSet_not_mem _ _ _ (h2 ▸ hmem), keys_mapSet_not_mem _ _ _ hmem, h2]
    · intro k hk
      rw [keys_mapSet_not_mem _ _ _ hmem] at hk
      rcases List.mem_append.mp hk with hk | hk
      · exact h3 k hk
      · exact ⟨key, by simpa using hk⟩

theorem evictOldest_length {α : Type} (cfg : CacheConfig) (c : SmartCache α)
    (hpfx : cfg.keyPfx ≠ "") (hwf : CacheWF cfg c) (hne : c.cache ≠ []) :
    (SmartCache.evictOldest cfg c).cache.length + 1 = c.cache.length := by
  obtain ⟨h1, h2, h3⟩ := hwf
  have hacc : c.accessCount ≠ [] := by
    intro h
    apply hne
    have : mapKeys c.cache = [] := by rw [← h2, h]; rfl
    simpa [mapKeys] using this
  obtain ⟨q, hq, hqmem, _⟩ := pickMin_spec c.accessCount hacc
  have hqkey : q.1 ∈ mapKeys c.cache := by
    rw [← h2]
    exact List.mem_map.mpr ⟨q, hqmem, rfl⟩
  obtain ⟨s, hs⟩ := h3 q.1 hqkey
  have hq1 : q.1 ≠ "" := hs ▸ append_ne_empty_left hpfx
  have hstrip : jsReplaceFirst q.1 cfg.keyPfx "" = s := by
    rw [hs]
    exact jsReplaceFirst_cancel cfg.keyPfx s hpfx
  unfold SmartCache.evictOldest
  rw [hq]
  simp only [if_neg hq1]
  show (mapDelete c.cache (cfg.keyPfx ++ jsReplaceFirst q.1 cfg.keyPfx "")).length + 1 =
    c.cache.length
  rw [hstrip, ← hs]
  rw [length_eq_keys_length, length_eq_keys_length c.cache, keys_mapDelete]
  exact length_keyErase_mem hqkey

theorem set_length_le {α : Type} (cfg : CacheConfig) (c : SmartCache α) (now : Nat)
    (key : String) (v : α) (ttl : Nat) (hpfx : cfg.keyPfx ≠ "")
    (hmax : 1 ≤ cfg.maxEntries) (hwf : CacheWF cfg c)
    (hlen : c.cache.length ≤ cfg.maxEntries) :
    (SmartCache.set cfg c now key v ttl).cache.length ≤ cfg.maxEntries := by
  unfold SmartCache.set
  by_cases hcap : cfg.maxEntries ≤ c.cache.length
  · have hne : c.cache ≠ [] := by
      intro h
      rw [h] at hcap
      simp at hcap
      omega
    have hev := evictOldest_length cfg c hpfx hwf hne
    have hle := length_mapSet_le (SmartCache.evictOldest cfg c).cache (cfg.keyPfx ++ key) v
    simp only [if_pos hcap]
    omega
  · have hle := length_mapSet_le c.cache (cfg.keyPfx ++ key) v
    simp only [if_neg hcap]
    omega

theorem applySets_length_le {α : Type} (cfg : CacheConfig)
    (hpfx : cfg.keyPfx ≠ "") (hmax : 1 ≤ cfg.maxEntries) :
    ∀ (ops : List (Nat × String × α × Nat)) (c : SmartCache α),
      CacheWF cfg c → c.cache.length ≤ cfg.maxEntries →
      (applySets cfg c ops).cache.length ≤ cfg.maxEntries := by
  intro ops
  induction ops with
  | nil => intro c _ hlen; exact hlen
  | cons op rest ih =>
    intro c hwf hlen
    exact ih _ (set_CacheWF cfg c op.1 op.2.1 op.2.2.1 op.2.2.2 hwf)
      (set_length_le cfg c op.1 op.2.1 op.2.2.1 op.2.2.2 hpfx hmax hwf hlen)

/- ===================== Lemmas: the search index ===================== -/

theorem mapGet_mapSet_ne {α : Type} (k k' : String) (v : α) (hne : k' ≠ k) :
    ∀ (m : List (String × α)), mapGet (mapSet m k v) k' = mapGet m k' := by
  have hkk : ¬ k = k' := fun h => hne h.symm
  intro m
  induction m with
  | nil => simp [mapSet, mapGet, hkk]
  | cons e rest ih =>
    by_cases h : e.1 = k
    · simp [mapSet, h, mapGet, hkk]
    · simp [mapSet, h, mapGet, ih]

theorem mem_setAdd (s : List Nat) (x r : Nat) :
    r ∈ setAdd s x ↔ r ∈ s ∨ r = x := by
  unfold setAdd
  by_cases h : x ∈ s
  · rw [if_pos h]
    constructor
    · exact fun hr => Or.inl hr
    · rintro (hr | rfl)
      · exact hr
      · exact h
  · rw [if_neg h]
    simp

theorem mem_setAddAll :
    ∀ (rows : List Nat) (s : List Nat) (r : Nat),
      r ∈ setAddAll s rows ↔ r ∈ s ∨ r ∈ rows := by
  intro rows
  induction rows with
  | nil => intro s r; simp [setAddAll]
  | cons x xs ih =>
    intro s r
    show r ∈ setAddAll (setAdd s x) xs ↔ _
    rw [ih]
    rw [mem_setAdd]
    constructor
    · rintro ((hr | rfl) | hr)
      · exact Or.inl hr
      · exact Or.inr (by simp)
      · exact Or.inr (by simp [hr])
    · rintro (hr | hr)
      · exact Or.inl (Or.inl hr)
      · rcases List.mem_cons.mp hr with rfl | hr
        · exact Or.inl (Or.inr rfl)
        · exact Or.inr hr

theorem searchWithIndex_single_none (idx : List (String × List (String × List Nat)))
    (c : String) (v : JsVal) (h : mapGet idx c = none) :
    searchWithIndex idx [(c, v)] = [] := by
  simp [searchWithIndex, h]

theorem searchWithIndex_single_some (idx : List (String × List (String × List Nat)))
    (c : String) (v : JsVal) (m : List (String × List Nat)) (h : mapGet idx c = some m) :
    searchWithIndex idx [(c, v)] = setAddAll [] (rowsOf m (jsNormalize v)) := by
  simp [searchWithIndex, h]

theorem mem_searchWithIndex_single (idx : List (String × List (String × List Nat)))
    (c : String) (v : JsVal) (m : List (String × List Nat)) (h : mapGet idx c = some m)
    (r : Nat) :
    r ∈ searchWithIndex idx [(c, v)] ↔ r ∈ rowsOf m (jsNormalize v) := by
  rw [searchWithIndex_single_some idx c v m h, mem_setAddAll]
  simp

theorem rowsOf_indexAdd_self :
    ∀ (m : List (String × List Nat)) (k : String) (r : Nat),
      rowsOf (indexAdd m k r) k = rowsOf m k ++ [r] := by
  intro m
  induction m with
  | nil => intro k r; simp [indexAdd, rowsOf, mapGet]
  | cons e rest ih =>
    intro k r
    by_cases h : e.1 = k
    · simp [indexAdd, h, rowsOf, mapGet]
    · simp [indexAdd, h, rowsOf, mapGet]
      exact ih k r

theorem rowsOf_indexAdd_ne :
    ∀ (m : List (String × List Nat)) (k k' : String) (r : Nat), k' ≠ k →
      rowsOf (indexAdd m k r) k' = rowsOf m k' := by
  intro m
  induction m with
  | nil =>
    intro k k' r hne
    have hkk : ¬ k = k' := fun h => hne h.symm
    simp [indexAdd, rowsOf, mapGet, hkk]
  | cons e rest ih =>
    intro k k' r hne
    have hkk : ¬ k = k' := fun h => hne h.symm
    by_cases h : e.1 = k
    · simp [indexAdd, h, rowsOf, mapGet, hkk]
    · by_cases h3 : e.1 = k'
      · simp [indexAdd, h, rowsOf, mapGet, h3, hkk, hne]
      · simp [indexAdd, h, rowsOf, mapGet, h3]
        exact ih k k' r hne

theorem mem_buildColIndexFrom (ci : Nat) :
    ∀ (rows : List (List JsVal)) (start : Nat) (m : List (String × List Nat))
      (k : String) (r : Nat),
      r ∈ rowsOf (buildColIndexFrom ci rows start m) k →
      r ∈ rowsOf m k ∨
        ∃ j row cell, rows.get? j = some row ∧ row.get? ci = some cell ∧
          js_truthy cell = true ∧ jsNormalize cell = k ∧ r = start + j := by
  intro rows
  induction rows with
  | nil =>
    intro start m k r h
    exact Or.inl h
  | cons row rest ih =>
    intro start m k r h
    simp only [buildColIndexFrom] at h
    rcases hcell : row.get? ci with _ | v
    · rw [show colIndexStep ci m row start = m by
        unfold colIndexStep; rw [hcell]] at h
      rcases ih (start + 1) m k r h with hm | ⟨j, row', cell, hj, hc, ht, hn, hr⟩
      · exact Or.inl hm
      · exact Or.inr ⟨j + 1, row', cell, by simpa using hj, hc, ht, hn, by omega⟩
    · by_cases htru : js_truthy v = true
      · rw [show colIndexStep ci m row start = indexAdd m (jsNormalize v) start by
          unfold colIndexStep; rw [hcell]; simp [htru]] at h
        rcases ih (start + 1) (indexAdd m (jsNormalize v) start) k r h with
          hm | ⟨j, row', cell, hj, hc, ht, hn, hr⟩
        · by_cases hk : k = jsNormalize v
          · rw [hk, rowsOf_indexAdd_self] at hm
            rcases List.mem_append.mp hm with hm | hm
            · exact Or.inl (hk ▸ hm)
            · refine Or.inr ⟨0, row, v, by simp, hcell, htru, hk.symm, ?_⟩
              simpa using List.mem_singleton.mp hm
          · rw [rowsOf_indexAdd_ne m (jsNormalize v) k start hk] at hm
            exact Or.inl hm
        · exact Or.inr ⟨j + 1, row', cell, by simpa using hj, hc, ht, hn, by omega⟩
      · rw [show colIndexStep ci m row start = m by
          unfold colIndexStep; rw [hcell]; simp [htru]] at h
        rcases ih (start + 1) m k r h with hm | ⟨j, row', cell, hj, hc, ht, hn, hr⟩
        · exact Or.inl hm
        · exact Or.inr ⟨j + 1, row', cell, by simpa using hj, hc, ht, hn, by omega⟩

theorem mem_buildColIndex (data : List (List JsVal)) (ci : Nat) (k : String) (r : Nat)
    (h : r ∈ rowsOf (buildColIndex data ci) k) :
    ∃ j row cell, data.get? (1 + j) = some row ∧ row.get? ci = some cell ∧
      js_truthy cell = true ∧ jsNormalize cell = k ∧ r = 1 + j := by
  rcases mem_buildColIndexFrom ci (data.drop 1) 1 [] k r h with hm | ⟨j, row, cell, hj, hc, ht, hn, hr⟩
  · simp [rowsOf, mapGet] at hm
  · exact ⟨j, row, cell, by rw [← List.get?_drop]; exact hj, hc, ht, hn, hr⟩

theorem buildSearchIndex_lookup_aux (data : List (List JsVal)) (c : String)
    (m : List (String × List Nat)) :
    ∀ (l : List (Nat × String)) (acc : List (String × List (String × List Nat))),
      mapGet (l.foldl (fun idx p => mapSet idx p.2 (buildColIndex data p.1)) acc) c = some m →
      (∃ p ∈ l, p.2 = c ∧ m = buildColIndex data p.1) ∨ mapGet acc c = some m := by
  intro l
  induction l with
  | nil => intro acc h; exact Or.inr h
  | cons p rest ih =>
    intro acc h
    rcases ih (mapSet acc p.2 (buildColIndex data p.1)) h with hl | hacc
    · obtain ⟨q, hq, hqc, hqm⟩ := hl
      exact Or.inl ⟨q, by simp [hq], hqc, hqm⟩
    · by_cases hc : c = p.2
      · rw [hc, mapGet_mapSet_self] at hacc
        exact Or.inl ⟨p, by simp, hc.symm, (Option.some_injective _ hacc).symm⟩
      · rw [mapGet_mapSet_ne p.2 c (buildColIndex data p.1) hc acc] at hacc
        exact Or.inr hacc

theorem buildSearchIndex_lookup (data : List (List JsVal)) (headers : List String)
    (c : String) (m : List (String × List Nat))
    (h : mapGet (buildSearchIndex data headers) c = some m) :
    ∃ ci, (ci, c) ∈ headers.enum ∧ m = buildColIndex data ci := by
  rcases buildSearchIndex_lookup_aux data c m headers.enum [] h with hl | hacc
  · obtain ⟨p, hp, hpc, hpm⟩ := hl
    exact ⟨p.1, by rw [← hpc]; exact hp, hpm⟩
  · simp [mapGet] at hacc

/- ===================== Lemmas: BatchProcessor ===================== -/

theorem createBatches_length {α : Type} :
    ∀ (items : List α) (b : Nat), 0 < b →
      (createBatches items b).length = (items.length + b - 1) / b := by
  intro items b
  induction items, b using createBatches.induct with
  | case1 b =>
    intro hb
    simp only [createBatches, List.length_nil, Nat.zero_add]
    exact (Nat.div_eq_of_lt (by omega)).symm
  | case2 a as =>
    intro hb
    exact absurd hb (by omega)
  | case3 a as b hb0 ih =>
    intro hb
    have hstep : createBatches (a :: as) b =
        (a :: as).take b :: createBatches ((a :: as).drop b) b := by
      simp [createBatches, hb0]
    rw [hstep]
    have ihl := ih hb
    simp only [List.length_cons, List.length_drop] at ihl ⊢
    rw [ihl]
    have hn : as.length + 1 + b - 1 = (as.length + 1 - 1) + b := by omega
    rw [hn, Nat.add_div_right _ hb]
    by_cases hcase : b ≤ as.length + 1
    · have h1 : as.length + 1 - b + b - 1 = as.length + 1 - 1 := by omega
      rw [h1]
    · have h1 : as.length + 1 - b = 0 := by omega
      rw [h1]
      rw [Nat.div_eq_of_lt (by omega), Nat.div_eq_of_lt (by omega)]

theorem batchSheets_foldl {π δ : Type} (h : SheetsHandlers π δ) :
    ∀ (items : List (BatchOp π)) (b : Nat), 0 < b →
      ∀ (acc : List (ItemResult δ)),
        (createBatches items b).foldl (fun rs batch => rs ++ processSheetsData h batch) acc =
          acc ++ items.map (sheetsItemOutcome h) := by
  intro items b
  induction items, b using createBatches.induct with
  | case1 b => intro _ acc; simp [createBatches]
  | case2 a as => intro hb; exact absurd hb (by omega)
  | case3 a as b hb0 ih =>
    intro hb acc
    have hstep : createBatches (a :: as) b =
        (a :: as).take b :: createBatches ((a :: as).drop b) b := by
      simp [createBatches, hb0]
    rw [hstep]
    simp only [List.foldl_cons]
    rw [ih hb]
    show acc ++ processSheetsData h ((a :: as).take b) ++
        ((a :: as).drop b).map (sheetsItemOutcome h) =
      acc ++ (a :: as).map (sheetsItemOutcome h)
    rw [List.append_assoc]
    show acc ++ (((a :: as).take b).map (sheetsItemOutcome h) ++
        ((a :: as).drop b).map (sheetsItemOutcome h)) = _
    rw [← List.map_append, List.take_append_drop]

theorem batchSheetsOperations_eq_map {π δ : Type} (h : SheetsHandlers π δ)
    (b : Nat) (hb : 0 < b) (operations : List (BatchOp π)) :
    batchSheetsOperations h b operations = operations.map (sheetsItemOutcome h) := by
  unfold batchSheetsOperations
  simpa using batchSheets_foldl h operations b hb []

theorem get?_set_ne {β : Type} :
    ∀ (l : List β) (i j : Nat) (a : β), i ≠ j → (l.set i a).get? j = l.get? j := by
  intro l
  induction l with
  | nil => intro i j a _; simp
  | cons x xs ih =>
    intro i j a hij
    cases i with
    | zero =>
      cases j with
      | zero => exact absurd rfl hij
      | succ j => simp [List.set]
    | succ i =>
      cases j with
      | zero => simp [List.set]
      | succ j =>
        simp only [List.set, List.get?_cons_succ]
        exact ih i j a (fun hh => hij (by rw [hh]))

/- ===================== Lemmas: the provisioner walk ===================== -/

theorem find?_append_none {β : Type} (p : β → Bool) :
    ∀ (l1 l2 : List β), l1.find? p = none → (l1 ++ l2).find? p = l2.find? p := by
  intro l1
  induction l1 with
  | nil => intro l2 _; simp
  | cons x xs ih =>
    intro l2 h
    cases hp : p x with
    | true =>
      rw [List.find?_cons_of_pos _ hp] at h
      exact absurd h (by simp)
    | false =>
      have hp' : ¬ p x = true := by simp [hp]
      rw [List.find?_cons_of_neg _ hp'] at h
      rw [List.cons_append, List.find?_cons_of_neg _ hp']
      exact ih l2 h

theorem getOrCreateFolder_idem (st : DriveState) (pid : Nat) (name : String) :
    getOrCreateFolder (getOrCreateFolder st pid name).2 pid name =
      getOrCreateFolder st pid name := by
  cases h : findFolderByName st pid name with
  | some fid =>
    have h1 : getOrCreateFolder st pid name = (fid, st) := by
      unfold getOrCreateFolder; rw [h]
    rw [h1]
    exact h1
  | none =>
    have h1 : getOrCreateFolder st pid name = driveCreateNode st pid name NodeKind.folder := by
      unfold getOrCreateFolder; rw [h]
    have hn : st.nodes.find? (folderMatch pid name) = none := by
      unfold findFolderByName at h
      cases hf : st.nodes.find? (folderMatch pid name) with
      | none => rfl
      | some x => rw [hf] at h; simp at h
    have hfind : findFolderByName (driveCreateNode st pid name NodeKind.folder).2 pid name =
        some st.nextId := by
      show ((st.nodes ++ [DriveNode.mk st.nextId pid name NodeKind.folder]).find?
        (folderMatch pid name)).map DriveNode.id = some st.nextId
      rw [find?_append_none (folderMatch pid name) st.nodes _ hn]
      simp [List.find?, folderMatch]
    rw [h1]
    unfold getOrCreateFolder
    rw [hfind]
    simp [driveCreateNode]

/- ===================== Claim theorems ===================== -/

/-- C1: the spec claims that for the well-formed identifier
`"ORD-2024-03-15-007"` the provisioner derives segments
`["2024","Q1","ORD-2024-03-15-007_<sanitized client>"]` and returns that
folderPath rather than an error result.  The code does the opposite: the
identifier splits into five dash-separated segments while
`createAdvancedOrderFolder` demands exactly four (`orderParts.length !== 4`),
so every identifier of the documented `ORD-YYYY-MM-DD-XXX` shape is rejected
with the `Invalid Order ID format` error object and folderPath `"ERROR"` —
contradicting the code's own error message, which names that very shape as
the expected format. -/
theorem C1_wellformed_identifier_rejected :
    jsSplit "ORD-2024-03-15-007" '-' = ["ORD", "2024", "03", "15", "007"] ∧
    (createAdvancedOrderFolder (some 0) initialDrive
        "ORD-2024-03-15-007" "Acme Trading" "" "").1 =
      orderFolderError
        "Invalid Order ID format: ORD-2024-03-15-007. Expected: ORD-YYYY-MM-DD-XXX" ∧
    (createAdvancedOrderFolder (some 0) initialDrive
        "ORD-2024-03-15-007" "Acme Trading" "" "").1.pathOf = "ERROR" := by
  exact ⟨by decide, by decide, by decide⟩

/-- C2: after `set("k","v",ttl=5)` at time 0, a `get("k")` at time 10 (TTL
elapsed) returns the claimed miss, but the claimed purge never happens: `get`
hands the already-prefixed key `trade_ops_k` to `delete`, which prefixes it a
second time and deletes `trade_ops_trade_ops_k`, a no-op — the cache,
expiry and access-count maps are unchanged and still hold the entry. -/
theorem C2_expired_get_misses_but_never_purges :
    (SmartCache.get perfConfigCaching
        (SmartCache.set perfConfigCaching (emptyCache String) 0 "k" "v" 5) 10 "k").1 = none ∧
    (SmartCache.get perfConfigCaching
        (SmartCache.set perfConfigCaching (emptyCache String) 0 "k" "v" 5) 10 "k").2 =
      SmartCache.set perfConfigCaching (emptyCache String) 0 "k" "v" 5 ∧
    mapGet ((SmartCache.get perfConfigCaching
        (SmartCache.set perfConfigCaching (emptyCache String) 0 "k" "v" 5) 10 "k").2).cache
      "trade_ops_k" = some "v" := by
  exact ⟨by decide, by decide, by decide⟩

/-- C3 counterexample: over the index built from headers `["h1","h2"]` and
the single data row `["x","y"]`, the two-criteria query
`{h1:"zzz", h2:"y"}` returns row 1 while the single-criterion row sets are
`∅` and `{1}` — the result is not their set-intersection (which is empty).
When the first criterion matches nothing the loop's `size === 0` special
case treats the second criterion as the opening one instead of intersecting. -/
theorem C3_counterexample_empty_first_criterion :
    (let idx := buildSearchIndex
        [[JsVal.str "h1", JsVal.str "h2"], [JsVal.str "x", JsVal.str "y"]] ["h1", "h2"]
     searchWithIndex idx [("h1", JsVal.str "zzz"), ("h2", JsVal.str "y")] = [1] ∧
     searchWithIndex idx [("h1", JsVal.str "zzz")] = [] ∧
     searchWithIndex idx [("h2", JsVal.str "y")] = [1] ∧
     ¬ ((1 : Nat) ∈ searchWithIndex idx [("h1", JsVal.str "zzz"), ("h2", JsVal.str "y")] ↔
        (1 ∈ searchWithIndex idx [("h1", JsVal.str "zzz")] ∧
         1 ∈ searchWithIndex idx [("h2", JsVal.str "y")]))) := by
  exact ⟨by decide, by decide, by decide, by decide⟩

/-- C3 amended: for two criteria whose columns are both present in the index,
the indexed search returns exactly the set-intersection of the two
single-criterion row sets **provided the first criterion's row set is
non-empty**; when it is empty the code instead returns the second criterion's
row set (see the counterexample). -/
theorem C3_amended_intersection_of_nonempty_first
    (idx : List (String × List (String × List Nat))) (c1 c2 : String) (v1 v2 : JsVal)
    (m1 m2 : List (String × List Nat))
    (h1 : mapGet idx c1 = some m1) (h2 : mapGet idx c2 = some m2)
    (hne : searchWithIndex idx [(c1, v1)] ≠ []) (r : Nat) :
    r ∈ searchWithIndex idx [(c1, v1), (c2, v2)] ↔
      r ∈ searchWithIndex idx [(c1, v1)] ∧ r ∈ searchWithIndex idx [(c2, v2)] := by
  have hs1 : searchWithIndex idx [(c1, v1)] = setAddAll [] (rowsOf m1 (jsNormalize v1)) :=
    searchWithIndex_single_some idx c1 v1 m1 h1
  have hs2 : searchWithIndex idx [(c2, v2)] = setAddAll [] (rowsOf m2 (jsNormalize v2)) :=
    searchWithIndex_single_some idx c2 v2 m2 h2
  have hne' : ¬ ((setAddAll [] (rowsOf m1 (jsNormalize v1))).length = 0) := by
    rw [List.length_eq_zero]
    rw [hs1] at hne
    exact hne
  have hpair : searchWithIndex idx [(c1, v1), (c2, v2)] =
      setAddAll [] ((rowsOf m2 (jsNormalize v2)).filter
        (fun x => decide (x ∈ setAddAll [] (rowsOf m1 (jsNormalize v1))))) := by
    simp only [searchWithIndex, List.foldl_cons, List.foldl_nil, h1, h2, List.length_nil,
      if_true]
    rw [if_neg hne']
  rw [hpair, hs1, hs2]
  simp only [mem_setAddAll, List.mem_filter, List.not_mem_nil, false_or, decide_eq_true_eq]
  constructor
  · rintro ⟨hr2, hr1⟩
    exact ⟨by simpa [mem_setAddAll] using hr1, hr2⟩
  · rintro ⟨hr1, hr2⟩
    exact ⟨hr2, by simpa [mem_setAddAll] using hr1⟩

/-- Witness for the amended C3 at a concrete built index: headers
`["h1","h2"]`, one data row `["x","y"]`, criteria `{h1:"x", h2:"y"}`. -/
theorem C3_amended_witness :
    (1 : Nat) ∈ searchWithIndex
        (buildSearchIndex
          [[JsVal.str "h1", JsVal.str "h2"], [JsVal.str "x", JsVal.str "y"]] ["h1", "h2"])
        [("h1", JsVal.str "x"), ("h2", JsVal.str "y")] ↔
      (1 ∈ searchWithIndex
          (buildSearchIndex
            [[JsVal.str "h1", JsVal.str "h2"], [JsVal.str "x", JsVal.str "y"]] ["h1", "h2"])
          [("h1", JsVal.str "x")] ∧
       1 ∈ searchWithIndex
          (buildSearchIndex
            [[JsVal.str "h1", JsVal.str "h2"], [JsVal.str "x", JsVal.str "y"]] ["h1", "h2"])
          [("h2", JsVal.str "y")]) :=
  C3_amended_intersection_of_nonempty_first
    (buildSearchIndex
      [[JsVal.str "h1", JsVal.str "h2"], [JsVal.str "x", JsVal.str "y"]] ["h1", "h2"])
    "h1" "h2" (JsVal.str "x") (JsVal.str "y") [("x", [1])] [("y", [1])]
    (by decide) (by decide) (by decide) 1

/-- C4 counterexample: provisioning `"ORD-2024-03-15"` (client `"Acme"`)
twice with identical arguments creates one additional remote object on the
repeat call — `createOrderMetadata` calls `createFile` unconditionally, so a
fresh `_order_metadata.json` is created every time.  (The identifier has four
dash segments so it passes the code's segment check and the walk actually
runs.)  This refutes "a repeated provisioning call with the same arguments
creates no new remote objects at all". -/
theorem C4_counterexample_repeat_recreates_metadata :
    (let r1 := createAdvancedOrderFolder (some 0) initialDrive "ORD-2024-03-15" "Acme" "" ""
     let r2 := createAdvancedOrderFolder (some 0) r1.2 "ORD-2024-03-15" "Acme" "" ""
     r2.2.nodes.length = r1.2.nodes.length + 1) := by
  decide

/-- C4 amended: the folder walk itself is idempotent — `getOrCreateFolder`
called again under the same parent with the same name returns the same node
id and leaves the tree untouched, so a repeated provisioning call produces
the same terminal folder id and creates **zero new folders**; but it does
create exactly one new remote file (the metadata record) per call. -/
theorem C4_amended_walk_idempotent_metadata_duplicated :
    (∀ (st : DriveState) (pid : Nat) (name : String),
        getOrCreateFolder (getOrCreateFolder st pid name).2 pid name =
          getOrCreateFolder st pid name) ∧
    (let r1 := createAdvancedOrderFolder (some 0) initialDrive "ORD-2024-03-15" "Acme" "" ""
     let r2 := createAdvancedOrderFolder (some 0) r1.2 "ORD-2024-03-15" "Acme" "" ""
     r2.1.idOf = r1.1.idOf ∧
     (r2.2.nodes.filter (fun n => decide (n.kind = NodeKind.folder))).length =
       (r1.2.nodes.filter (fun n => decide (n.kind = NodeKind.folder))).length ∧
     r2.2.nodes.length = r1.2.nodes.length + 1) :=
  ⟨getOrCreateFolder_idem, by decide⟩

/-- C5: the cache never exceeds its configured maximum and eviction removes a
global-minimum-access-count entry.  Conjunct 1: any sequence of `set` calls
keeps `cache.size ≤ maxEntries` (from a well-formed state within the bound,
with a non-empty key namespace and `maxEntries ≥ 1`).  Conjunct 2: on a
non-empty well-formed cache, `evictOldest` removes exactly one entry, whose
access count is the global minimum.  Conjunct 3: the spec's scenario at max
size 2 — `set a; set b; get a; set c` evicts `b` (count 0), not `a`
(count 1). -/
theorem C5_capacity_invariant_and_min_count_eviction :
    (∀ (α : Type) (cfg : CacheConfig) (c : SmartCache α)
        (ops : List (Nat × String × α × Nat)),
        cfg.keyPfx ≠ "" → 1 ≤ cfg.maxEntries → CacheWF cfg c →
        c.cache.length ≤ cfg.maxEntries →
        (applySets cfg c ops).cache.length ≤ cfg.maxEntries) ∧
    (∀ (α : Type) (cfg : CacheConfig) (c : SmartCache α),
        cfg.keyPfx ≠ "" → CacheWF cfg c → c.accessCount ≠ [] →
        ∃ q, pickMin c.accessCount = some q ∧ q ∈ c.accessCount ∧
          (∀ e ∈ c.accessCount, q.2 ≤ e.2) ∧
          mapKeys (SmartCache.evictOldest cfg c).cache = keyErase (mapKeys c.cache) q.1 ∧
          (SmartCache.evictOldest cfg c).cache.length + 1 = c.cache.length) ∧
    (let cfg2 : CacheConfig := ⟨300000, 2, "trade_ops_"⟩
     let d3 := (SmartCache.get cfg2
       (SmartCache.set cfg2 (SmartCache.set cfg2 (emptyCache String) 0 "a" "va" 1000)
         0 "b" "vb" 1000) 0 "a").2
     mapGet d3.accessCount "trade_ops_a" = some 1 ∧
     mapGet d3.accessCount "trade_ops_b" = some 0 ∧
     mapKeys (SmartCache.set cfg2 d3 0 "c" "vc" 1000).cache =
       ["trade_ops_a", "trade_ops_c"]) := by
  refine ⟨?_, ?_, by decide⟩
  · intro α cfg c ops hpfx hmax hwf hlen
    exact applySets_length_le cfg hpfx hmax ops c hwf hlen
  · intro α cfg c hpfx hwf hacc
    obtain ⟨q, hq, hqmem, hqmin⟩ := pickMin_spec c.accessCount hacc
    obtain ⟨h1, h2, h3⟩ := hwf
    have hqkey : q.1 ∈ mapKeys c.cache := by
      rw [← h2]
      exact List.mem_map.mpr ⟨q, hqmem, rfl⟩
    obtain ⟨s, hs⟩ := h3 q.1 hqkey
    have hq1 : q.1 ≠ "" := hs ▸ append_ne_empty_left hpfx
    have hstrip : cfg.keyPfx ++ jsReplaceFirst q.1 cfg.keyPfx "" = q.1 := by
      rw [hs, jsReplaceFirst_cancel cfg.keyPfx s hpfx]
    refine ⟨q, hq, hqmem, hqmin, ?_, ?_⟩
    · unfold SmartCache.evictOldest
      rw [hq]
      simp only [if_neg hq1]
      show mapKeys (mapDelete c.cache (cfg.keyPfx ++ jsReplaceFirst q.1 cfg.keyPfx "")) = _
      rw [hstrip, keys_mapDelete]
    · have hcne : c.cache ≠ [] := by
        intro hnil
        rw [hnil] at hqkey
        simp [mapKeys] at hqkey
      exact evictOldest_length cfg c hpfx ⟨h1, h2, h3⟩ hcne

/-- Witness for C5: three `set` calls into an empty two-entry cache leave at
most two entries. -/
theorem C5_witness :
    (applySets (CacheConfig.mk 300000 2 "trade_ops_") (emptyCache String)
      [(0, "a", "va", 1000), (0, "b", "vb", 1000), (0, "c", "vc", 1000)]).cache.length ≤ 2 :=
  C5_capacity_invariant_and_min_count_eviction.1 String (CacheConfig.mk 300000 2 "trade_ops_")
    (emptyCache String) [(0, "a", "va", 1000), (0, "b", "vb", 1000), (0, "c", "vc", 1000)]
    (by decide) (by decide)
    ⟨rfl, rfl, by intro k hk; simp [mapKeys, emptyCache] at hk⟩ (by decide)

/-- C6: for `N` operations at chunk size `B > 0`, `createBatches` yields
exactly `⌈N/B⌉ = (N + B - 1) / B` chunks, `batchSheetsOperations` dispatches
`processSheetsData` once per chunk and concatenates the per-item results in
order, and the concatenation is exactly the per-item outcome of every one of
the `N` operations in order (so the total item count is `N`). -/
theorem C6_chunk_count_and_full_coverage :
    ∀ (π δ : Type) (h : SheetsHandlers π δ) (operations : List (BatchOp π)) (b : Nat),
      0 < b →
      (createBatches operations b).length = (operations.length + b - 1) / b ∧
      batchSheetsOperations h b operations = operations.map (sheetsItemOutcome h) ∧
      (batchSheetsOperations h b operations).length = operations.length := by
  intro π δ h ops b hb
  refine ⟨createBatches_length ops b hb, batchSheetsOperations_eq_map h b hb ops, ?_⟩
  rw [batchSheetsOperations_eq_map h b hb ops, List.length_map]

/-- Witness for C6: three operations at chunk size 2 produce ⌈3/2⌉ = 2
chunks. -/
theorem C6_witness :
    (createBatches [BatchOp.mk "read" (0 : Nat), BatchOp.mk "write" 0,
      BatchOp.mk "zzz" 0] 2).length = (3 + 2 - 1) / 2 :=
  (C6_chunk_count_and_full_coverage Nat Nat
    (SheetsHandlers.mk (fun _ => Except.ok 0) (fun _ => Except.ok 0) (fun _ => Except.ok 0))
    [BatchOp.mk "read" 0, BatchOp.mk "write" 0, BatchOp.mk "zzz" 0] 2 (by decide)).1

/-- C7: within a chunk each operation is executed under its own try/catch, so
(1) the chunk always returns one result per operation and never throws
(totality of `processSheetsData` / `processDriveOperations`); (2) replacing
the operation at position `j` (e.g. by a failing one) leaves the reported
outcome at every other position untouched; (3) the result at `j` is exactly
that operation's own outcome; (4) an unknown operation kind yields
`{success:false, error:"Unknown operation type: …"}` for that item; (5) a
remote error from a handler yields `{success:false, error}` for that item. -/
theorem C7_per_item_failure_isolation :
    (∀ (π δ : Type) (h : SheetsHandlers π δ) (batch : List (BatchOp π)),
        (processSheetsData h batch).length = batch.length) ∧
    (∀ (π δ : Type) (h : DriveHandlers π δ) (batch : List (BatchOp π)),
        (processDriveOperations h batch).length = batch.length) ∧
    (∀ (π δ : Type) (h : SheetsHandlers π δ) (batch : List (BatchOp π))
        (j : Nat) (op : BatchOp π) (i : Nat), i ≠ j →
        (processSheetsData h (batch.set j op)).get? i = (processSheetsData h batch).get? i) ∧
    (∀ (π δ : Type) (h : SheetsHandlers π δ) (batch : List (BatchOp π))
        (j : Nat) (op : BatchOp π), batch.get? j = some op →
        (processSheetsData h batch).get? j = some (sheetsItemOutcome h op)) ∧
    (∀ (π δ : Type) (h : SheetsHandlers π δ) (op : BatchOp π),
        op.type ≠ "read" → op.type ≠ "write" → op.type ≠ "update" →
        sheetsItemOutcome h op =
          ItemResult.failure ("Unknown operation type: " ++ op.type)) ∧
    (∀ (π δ : Type) (h : SheetsHandlers π δ) (op : BatchOp π) (e : String),
        sheetsDispatch h op = Except.error e →
        sheetsItemOutcome h op = ItemResult.failure e) ∧
    (∀ (π δ : Type) (h : DriveHandlers π δ) (op : BatchOp π),
        op.type ≠ "createFolder" → op.type ≠ "moveFile" → op.type ≠ "setPermissions" →
        driveItemOutcome h op =
          ItemResult.failure ("Unknown operation type: " ++ op.type)) := by
  refine ⟨?_, ?_, ?_, ?_, ?_, ?_, ?_⟩
  · intro π δ h batch
    simp [processSheetsData]
  · intro π δ h batch
    simp [processDriveOperations]
  · intro π δ h batch j op i hij
    unfold processSheetsData
    rw [List.get?_map, List.get?_map, get?_set_ne batch j i op (fun hh => hij hh.symm)]
  · intro π δ h batch j op hj
    unfold processSheetsData
    rw [List.get?_map, hj]
    rfl
  · intro π δ h op h1 h2 h3
    unfold sheetsItemOutcome sheetsDispatch
    rw [if_neg h1, if_neg h2, if_neg h3]
  · intro π δ h op e hdisp
    unfold sheetsItemOutcome
    rw [hdisp]
  · intro π δ h op h1 h2 h3
    unfold driveItemOutcome driveDispatch
    rw [if_neg h1, if_neg h2, if_neg h3]

/-- Witness for C7: replacing the first of two operations by an unknown-kind
one does not change the second item's reported outcome. -/
theorem C7_witness :
    (processSheetsData
        (SheetsHandlers.mk (fun _ => Except.ok (0 : Nat)) (fun _ => Except.ok 0)
          (fun _ => Except.ok 0))
        ([BatchOp.mk "read" (0 : Nat), BatchOp.mk "write" 0].set 0 (BatchOp.mk "zzz" 0))).get? 1 =
      (processSheetsData
        (SheetsHandlers.mk (fun _ => Except.ok (0 : Nat)) (fun _ => Except.ok 0)
          (fun _ => Except.ok 0))
        [BatchOp.mk "read" (0 : Nat), BatchOp.mk "write" 0]).get? 1 :=
  C7_per_item_failure_isolation.2.2.1 Nat Nat
    (SheetsHandlers.mk (fun _ => Except.ok 0) (fun _ => Except.ok 0) (fun _ => Except.ok 0))
    [BatchOp.mk "read" 0, BatchOp.mk "write" 0] 0 (BatchOp.mk "zzz" 0) 1 (by decide)

/-- C8: the spec claims an identifier with the wrong dash-segment count
returns a validation-error result.  Against the documented
`ORD-YYYY-MM-DD-XXX` format (five segments — see C1), the code misclassifies:
the malformed four-segment identifier `"ORD-2024-03-15"` passes the
`length !== 4` check and is provisioned successfully (folderPath
`"2024/Q1/ORD-2024-03-15_Acme"`, no error object), while only counts other
than four (here the two-segment `"ORD-2024"`) produce the validation-error
object.  No exception escapes in either case — the whole body is inside the
try/catch, mirrored by the embedding's totality. -/
theorem C8_wrong_segment_count_can_provision :
    (jsSplit "ORD-2024-03-15" '-').length = 4 ∧
    (createAdvancedOrderFolder (some 0) initialDrive "ORD-2024-03-15" "Acme" "" "").1.isErr =
      false ∧
    (createAdvancedOrderFolder (some 0) initialDrive "ORD-2024-03-15" "Acme" "" "").1.pathOf =
      "2024/Q1/ORD-2024-03-15_Acme" ∧
    (createAdvancedOrderFolder (some 0) initialDrive "ORD-2024" "Acme" "" "").1 =
      orderFolderError "Invalid Order ID format: ORD-2024. Expected: ORD-YYYY-MM-DD-XXX" := by
  exact ⟨by decide, by decide, by decide, by decide⟩

/-- C9: every `set` stores the entry with access count 0 under the namespaced
key — also when the key already holds a live entry, discarding its
accumulated count (conjunct 1); the freshly set key's count is therefore ≤
every count in the map, i.e. it is immediately a minimum-access-count
eviction candidate (conjunct 2); concretely, a key read twice (count 2) and
then overwritten is back at count 0 (conjunct 3). -/
theorem C9_set_resets_access_count_to_zero :
    (∀ (α : Type) (cfg : CacheConfig) (c : SmartCache α) (now : Nat) (k : String)
        (v : α) (ttl : Nat),
        mapGet (SmartCache.set cfg c now k v ttl).accessCount (cfg.keyPfx ++ k) = some 0) ∧
    (∀ (α : Type) (cfg : CacheConfig) (c : SmartCache α) (now : Nat) (k : String)
        (v : α) (ttl : Nat),
        ∀ e ∈ (SmartCache.set cfg c now k v ttl).accessCount,
          (mapGet (SmartCache.set cfg c now k v ttl).accessCount (cfg.keyPfx ++ k)).getD 0 ≤
            e.2) ∧
    (let c3 := (SmartCache.get perfConfigCaching
        (SmartCache.get perfConfigCaching
          (SmartCache.set perfConfigCaching (emptyCache String) 0 "a" "x" 100) 1 "a").2
        2 "a").2
     mapGet c3.accessCount "trade_ops_a" = some 2 ∧
     mapGet (SmartCache.set perfConfigCaching c3 3 "a" "y" 100).accessCount "trade_ops_a" =
       some 0) := by
  have hzero : ∀ (α : Type) (cfg : CacheConfig) (c : SmartCache α) (now : Nat) (k : String)
      (v : α) (ttl : Nat),
      mapGet (SmartCache.set cfg c now k v ttl).accessCount (cfg.keyPfx ++ k) = some 0 := by
    intro α cfg c now k v ttl
    unfold SmartCache.set
    exact mapGet_mapSet_self _ _ _
  refine ⟨hzero, ?_, by decide⟩
  intro α cfg c now k v ttl e _
  rw [hzero]
  exact Nat.zero_le e.2

/-- Witness for C9: the reset count of a freshly set key is ≤ its own entry's
count. -/
theorem C9_witness :
    (mapGet (SmartCache.set perfConfigCaching (emptyCache String) 0 "a" "x" 100).accessCount
      (perfConfigCaching.keyPfx ++ "a")).getD 0 ≤ ("trade_ops_a", (0 : Nat)).2 :=
  C9_set_resets_access_count_to_zero.2.1 String perfConfigCaching (emptyCache String) 0 "a"
    "x" 100 ("trade_ops_a", 0) (by decide)

/-- C10 counterexample: the snapshot holds a row whose `Status` cell is the
number 0 (falsy, skipped by the index build) **and** a row whose cell is the
truthy string "0"; the criterion `{Status: 0}` normalizes to the string "0"
and finds that second row, so a criterion equal to a falsy value does not
always find zero rows. -/
theorem C10_counterexample_zero_criterion_matches_string_zero :
    (let data := [[JsVal.str "Status"], [JsVal.num 0], [JsVal.str "0"]]
     searchWithIndex (buildSearchIndex data ["Status"]) [("Status", JsVal.num 0)] = [2] ∧
     data.get? 1 = some [JsVal.num 0] ∧
     ([2] : List Nat) ≠ []) := by
  exact ⟨by decide, by decide, by decide⟩

/-- C10 amended: the index build does skip every falsy cell — each row number
stored in a built column index traces back to a **truthy** cell of that very
row whose normalized string is the bucket key (conjunct 1); every column map
of a built index is such a column index (conjunct 2); a single-criterion
query returns exactly that column's bucket for the normalized criterion
(conjunct 3); and the empty string, 0 and false are indeed falsy
(conjunct 4).  Hence a falsy-valued criterion never matches a row through a
cell holding that falsy value — it can only match rows whose truthy cells
share the same normalized string, as in the counterexample. -/
theorem C10_amended_falsy_cells_never_indexed :
    (∀ (data : List (List JsVal)) (ci : Nat) (k : String) (r : Nat),
        r ∈ rowsOf (buildColIndex data ci) k →
        ∃ j row cell, data.get? (1 + j) = some row ∧ row.get? ci = some cell ∧
          js_truthy cell = true ∧ jsNormalize cell = k ∧ r = 1 + j) ∧
    (∀ (data : List (List JsVal)) (headers : List String) (c : String)
        (m : List (String × List Nat)),
        mapGet (buildSearchIndex data headers) c = some m →
        ∃ ci, (ci, c) ∈ headers.enum ∧ m = buildColIndex data ci) ∧
    (∀ (idx : List (String × List (String × List Nat))) (c : String) (v : JsVal)
        (m : List (String × List Nat)) (r : Nat),
        mapGet idx c = some m →
        (r ∈ searchWithIndex idx [(c, v)] ↔ r ∈ rowsOf m (jsNormalize v))) ∧
    (js_truthy (JsVal.str "") = false ∧ js_truthy (JsVal.num 0) = false ∧
     js_truthy (JsVal.boolean false) = false) := by
  refine ⟨mem_buildColIndex, buildSearchIndex_lookup, ?_, by decide, by decide, by decide⟩
  intro idx c v m r h
  exact mem_searchWithIndex_single idx c v m h r

/-- Witness for the amended C10 at the counterexample snapshot: row 2 of the
`Status` bucket "0" traces to a truthy cell normalizing to "0". -/
theorem C10_witness :
    ∃ j row cell,
      ([[JsVal.str "Status"], [JsVal.num 0], [JsVal.str "0"]] : List (List JsVal)).get?
        (1 + j) = some row ∧
      row.get? 0 = some cell ∧ js_truthy cell = true ∧ jsNormalize cell = "0" ∧
      2 = 1 + j :=
  C10_amended_falsy_cells_never_indexed.1
    [[JsVal.str "Status"], [JsVal.num 0], [JsVal.str "0"]] 0 "0" 2 (by decide)
